import Mathlib

/-!
Verification of the cloud-cost comparison engine of `cloud-cost-mcp`.

Numbers in the source are JavaScript numbers used for prices and sizes; they
are modelled as exact rationals (`ℚ`).  `Math.round` is JavaScript's
round-half-up, which coincides with Mathlib's `round` on `ℚ`
(`round x = ⌊x + 1/2⌋`).  Display strings (summaries, item labels, notes)
carry no algorithmic content and are not modelled.
-/

namespace CloudCost

/-- The four supported cloud vendors (`CloudProvider` in `src/types.ts`). -/
inductive CloudProvider where
  | aws | azure | gcp | oci
deriving DecidableEq

/-- Compute categories (`ComputeCategory`), including the special value
`arm` that `compareCompute` treats as an architecture alias. -/
inductive ComputeCategory where
  | general | compute | memory | storage | gpu | arm
deriving DecidableEq

/-- Instance CPU architectures (`'x86' | 'arm'`). -/
inductive Architecture where
  | x86 | arm
deriving DecidableEq

/-- Storage service types (`StorageType` in `src/types.ts`). -/
inductive StorageType where
  | object | block | file | archive
deriving DecidableEq

/-- Storage access tiers (`StorageTier` in `src/types.ts`). -/
inductive StorageTier where
  | hot | cool | cold | archive
deriving DecidableEq

/-- One egress pricing tier: a cumulative GB ceiling (`-1` meaning
unbounded) and a per-GB price. -/
structure EgressTier where
  upToGB : ℚ
  pricePerGB : ℚ
deriving DecidableEq

/-- A provider's egress pricing record: free allowance plus ordered tiers. -/
structure EgressPricing where
  provider : CloudProvider
  freeGBPerMonth : ℚ
  tiers : List EgressTier
deriving DecidableEq

/-- The GB a tier offers to the walk of `compareEgress` (compare.ts):
the unbounded tier (`upToGB = -1`) offers all remaining GB, a finite tier
offers `min(remainingGB, tier.upToGB - freeGBPerMonth)`. -/
def gbInTier (tier : EgressTier) (freeGBPerMonth remainingGB : ℚ) : ℚ :=
  if tier.upToGB = -1 then remainingGB
  else min remainingGB (tier.upToGB - freeGBPerMonth)

/-- The tier walk of `compareEgress` (compare.ts): given the free allowance
and the remaining billable GB, walk the tiers in order; break when the
remainder is `≤ 0`; a tier contributes its offered GB at its per-GB price
only when that amount is `> 0`.  Returns the accumulated cost of the walk. -/
def egressWalk (freeGBPerMonth : ℚ) : List EgressTier → ℚ → ℚ
  | [], _ => 0
  | tier :: rest, remainingGB =>
    if remainingGB ≤ 0 then 0
    else
      if 0 < gbInTier tier freeGBPerMonth remainingGB then
        gbInTier tier freeGBPerMonth remainingGB * tier.pricePerGB +
          egressWalk freeGBPerMonth rest (remainingGB - gbInTier tier freeGBPerMonth remainingGB)
      else egressWalk freeGBPerMonth rest remainingGB

/-- Per-provider monthly egress cost computed by `compareEgress`:
`billableGB = max(0, monthlyGB - freeGBPerMonth)`, then the tier walk. -/
def egressMonthlyCost (freeGBPerMonth : ℚ) (tiers : List EgressTier) (monthlyGB : ℚ) : ℚ :=
  egressWalk freeGBPerMonth tiers (max 0 (monthlyGB - freeGBPerMonth))

/-- Transcription of the specification's wording of the tier walk: each
finite tier contributes `min(remaining billable, upToGB − F)` GB at its
price, the unbounded tier contributes all remaining billable GB, stopping
when the remaining billable reaches `0` or tiers are exhausted. -/
def egressWalkSpec (freeGBPerMonth : ℚ) : List EgressTier → ℚ → ℚ
  | [], _ => 0
  | tier :: rest, remainingGB =>
    if remainingGB = 0 then 0
    else
      gbInTier tier freeGBPerMonth remainingGB * tier.pricePerGB +
        egressWalkSpec freeGBPerMonth rest (remainingGB - gbInTier tier freeGBPerMonth remainingGB)

/-- The specification's wording of the whole egress cost computation. -/
def egressMonthlyCostSpec (freeGBPerMonth : ℚ) (tiers : List EgressTier) (monthlyGB : ℚ) : ℚ :=
  egressWalkSpec freeGBPerMonth tiers (max 0 (monthlyGB - freeGBPerMonth))

/-- The demonstration tiers of the specification's scenarios:
free 100 GB, `[{upToGB: 10240, pricePerGB: 0.09}, {upToGB: -1, pricePerGB: 0.05}]`. -/
def demoTiers : List EgressTier := [⟨10240, 0.09⟩, ⟨-1, 0.05⟩]

/-- A normalized compute instance record (`ComputeInstance` in
`src/types.ts`), restricted to the fields the comparison engine reads. -/
structure ComputeInstance where
  provider : CloudProvider
  name : String
  vcpus : ℚ
  memoryGB : ℚ
  hourlyPrice : ℚ
  monthlyPrice : ℚ
  category : ComputeCategory
  architecture : Option Architecture
deriving DecidableEq

/-- Query of `compareCompute`; `vcpus`/`memoryGB` may be absent and the
source coalesces them with `query.vcpus || 0` (and `0` is falsy, so it
coalesces to itself). -/
structure ComputeComparisonQuery where
  vcpus : Option ℚ
  memoryGB : Option ℚ
  category : Option ComputeCategory
deriving DecidableEq

/-- The 50%-band acceptance window of `compareCompute`:
`vcpuMin = vcpus*0.5 ≤ instance.vcpus ≤ vcpuMax = vcpus*1.5`, and the same
for memory, all bounds inclusive. -/
def matchesSpecs (vcpus memoryGB : ℚ) (i : ComputeInstance) : Prop :=
  vcpus * 0.5 ≤ i.vcpus ∧ i.vcpus ≤ vcpus * 1.5 ∧
    memoryGB * 0.5 ≤ i.memoryGB ∧ i.memoryGB ≤ memoryGB * 1.5

instance (v m : ℚ) (i : ComputeInstance) : Decidable (matchesSpecs v m i) := by
  unfold matchesSpecs; infer_instance

/-- The filtered match list of `compareCompute`: the 50%-band filter, then
the optional category filter, where the category value `arm` filters by
`architecture === 'arm'` instead of by the `category` field. -/
def computeMatches (query : ComputeComparisonQuery)
    (allInstances : List ComputeInstance) : List ComputeInstance :=
  let vcpus := query.vcpus.getD 0
  let memoryGB := query.memoryGB.getD 0
  let base := allInstances.filter fun i => decide (matchesSpecs vcpus memoryGB i)
  match query.category with
  | none => base
  | some ComputeCategory.arm =>
      base.filter fun i => decide (i.architecture = some Architecture.arm)
  | some c => base.filter fun i => decide (i.category = c)

/-- The match list sorted ascending by `monthlyPrice`.  The source uses
JavaScript's stable `Array.prototype.sort`; any two stable sorts agree, so
the stable `insertionSort` models it exactly. -/
def sortedComputeMatches (query : ComputeComparisonQuery)
    (allInstances : List ComputeInstance) : List ComputeInstance :=
  (computeMatches query allInstances).insertionSort
    fun a b => a.monthlyPrice ≤ b.monthlyPrice

/-- Result of `compareCompute` (display summary not modelled). -/
structure ComputeComparisonResult where
  «matches» : List ComputeInstance
  cheapest : Option ComputeInstance
  savingsVsAWS : Option ℤ
deriving DecidableEq

/-- `compareCompute` (compare.ts): sort the matches by monthly price, the
cheapest is the first match if any, and `savingsVsAWS` is set only when a
cheapest match and an AWS match both exist and the cheapest is not AWS,
as `Math.round((aws - cheapest) / aws * 100)`; the match list returned is
capped to the 20 cheapest. -/
def compareCompute (query : ComputeComparisonQuery)
    (allInstances : List ComputeInstance) : ComputeComparisonResult :=
  let ms := sortedComputeMatches query allInstances
  let savings : Option ℤ :=
    match ms.head?, ms.find? fun i => decide (i.provider = CloudProvider.aws) with
    | some cheapest, some awsInstance =>
        if cheapest.provider = CloudProvider.aws then none
        else some (round
          ((awsInstance.monthlyPrice - cheapest.monthlyPrice) / awsInstance.monthlyPrice * 100))
    | _, _ => none
  ⟨ms.take 20, ms.head?, savings⟩

/-- A storage pricing record (`StoragePricing` in `src/types.ts`). -/
structure StoragePricing where
  provider : CloudProvider
  name : String
  type : StorageType
  tier : StorageTier
  pricePerGBMonth : ℚ
deriving DecidableEq

/-- Query of `compareStorage`. -/
structure StorageComparisonQuery where
  sizeGB : ℚ
  type : Option StorageType
  tier : Option StorageTier
deriving DecidableEq

/-- One monthly storage estimate produced by `compareStorage`. -/
structure StorageEstimate where
  provider : CloudProvider
  name : String
  monthlyCost : ℚ
deriving DecidableEq

/-- The `monthlyEstimates` list of `compareStorage` (compare.ts): filter by
optional tier and type, project to `pricePerGBMonth * sizeGB`, sort
ascending by cost, cap to 20. -/
def storageMonthlyEstimates (query : StorageComparisonQuery)
    (allStorage : List StoragePricing) : List StorageEstimate :=
  let m1 := match query.tier with
    | none => allStorage
    | some t => allStorage.filter fun s => decide (s.tier = t)
  let m2 := match query.type with
    | none => m1
    | some ty => m1.filter fun s => decide (s.type = ty)
  let ests := m2.map fun s =>
    StorageEstimate.mk s.provider s.name (s.pricePerGBMonth * query.sizeGB)
  (ests.insertionSort fun a b => a.monthlyCost ≤ b.monthlyCost).take 20

/-- One per-provider estimate of `compareEgress` (breakdown string not
modelled). -/
structure EgressEstimate where
  provider : CloudProvider
  monthlyCost : ℚ
deriving DecidableEq

/-- The `estimates` list of `compareEgress` (compare.ts): the tiered cost
per provider record, sorted ascending. -/
def compareEgressEstimates (allEgress : List EgressPricing) (monthlyGB : ℚ) :
    List EgressEstimate :=
  ((allEgress.map fun e =>
      EgressEstimate.mk e.provider (egressMonthlyCost e.freeGBPerMonth e.tiers monthlyGB))
    |>.insertionSort fun a b => a.monthlyCost ≤ b.monthlyCost)

/-- A provider's managed-Kubernetes pricing (the field the engine reads). -/
structure KubernetesPricing where
  controlPlaneMonthly : ℚ
deriving DecidableEq

/-- One per-provider estimate of `compareKubernetes` (notes not modelled). -/
structure K8sEstimate where
  provider : CloudProvider
  controlPlaneCost : ℚ
  workerNodeCost : ℚ
  totalMonthlyCost : ℚ
deriving DecidableEq

/-- The merged multi-provider pricing data the loader supplies to the
engine (`getAllComputeInstances`, `getAllStorageOptions`,
`getAllEgressPricing`, `getAllKubernetesPricing`). -/
structure Catalog where
  compute : List ComputeInstance
  storage : List StoragePricing
  egress : List EgressPricing
  kubernetes : CloudProvider → Option KubernetesPricing

/-- The fixed provider order `['aws', 'azure', 'gcp', 'oci']` used by the
comparison and calculator code. -/
def providers : List CloudProvider :=
  [CloudProvider.aws, CloudProvider.azure, CloudProvider.gcp, CloudProvider.oci]

/-- The `estimates` list of `compareKubernetes` (compare.ts): for each
provider having Kubernetes pricing, total = control-plane monthly price +
matched worker-node monthly price × node count (0 if no compute match),
sorted ascending by total.  The worker lookup reads the capped `matches`
list of `compareCompute`, exactly as the source does. -/
def compareKubernetesEstimates (catalog : Catalog)
    (nodeCount nodeVcpus nodeMemoryGB : ℚ) : List K8sEstimate :=
  let computeResult := compareCompute ⟨some nodeVcpus, some nodeMemoryGB, none⟩ catalog.compute
  let ests := providers.filterMap fun provider =>
    match catalog.kubernetes provider with
    | none => none
    | some k8s =>
      let workerNodeCost :=
        match computeResult.«matches».find? fun m => decide (m.provider = provider) with
        | some workerNode => workerNode.monthlyPrice * nodeCount
        | none => 0
      some (K8sEstimate.mk provider k8s.controlPlaneMonthly workerNodeCost
        (k8s.controlPlaneMonthly + workerNodeCost))
  ests.insertionSort fun a b => a.totalMonthlyCost ≤ b.totalMonthlyCost

/-- Compute sub-request of a `WorkloadSpec`. -/
structure ComputeRequest where
  vcpus : ℚ
  memoryGB : ℚ
  count : Option ℚ
deriving DecidableEq

/-- Storage sub-request of a `WorkloadSpec`. -/
structure StorageRequest where
  objectGB : Option ℚ
  blockGB : Option ℚ
deriving DecidableEq

/-- Egress sub-request of a `WorkloadSpec`. -/
structure EgressRequest where
  monthlyGB : ℚ
deriving DecidableEq

/-- Kubernetes sub-request of a `WorkloadSpec`. -/
structure KubernetesRequest where
  nodeCount : ℚ
  nodeVcpus : ℚ
  nodeMemoryGB : ℚ
deriving DecidableEq

/-- A caller-specified workload (`WorkloadSpec` in `src/types.ts`). -/
structure WorkloadSpec where
  compute : Option ComputeRequest
  storage : Option StorageRequest
  egress : Option EgressRequest
  kubernetes : Option KubernetesRequest
deriving DecidableEq

/-- One breakdown line of a `WorkloadCostEstimate` (the display-only
`item` label is not modelled). -/
structure BreakdownLine where
  category : String
  quantity : ℚ
  unitPrice : ℚ
  monthlyTotal : ℚ
deriving DecidableEq

/-- Per-provider workload estimate (`WorkloadCostEstimate`; advisory note
strings are not modelled). -/
structure WorkloadCostEstimate where
  provider : CloudProvider
  breakdown : List BreakdownLine
  totalMonthly : ℚ
deriving DecidableEq

/-- JavaScript `x || d` for an optional number: `undefined` and the falsy
`0` both fall back to the default. -/
def jsOr (x : Option ℚ) (d : ℚ) : ℚ :=
  match x with
  | none => d
  | some v => if v = 0 then d else v

/-- `calculateProviderCost` (calculator.ts): for each populated
sub-request, run the corresponding comparison restricted to this provider
and append breakdown lines; total is the running sum of line totals.
JavaScript truthiness guards (`if (spec.storage.objectGB)`) skip both
absent and zero sizes. -/
def calculateProviderCost (catalog : Catalog) (spec : WorkloadSpec)
    (provider : CloudProvider) : WorkloadCostEstimate :=
  let computeLines : List BreakdownLine :=
    match spec.compute with
    | none => []
    | some c =>
      match (compareCompute ⟨some c.vcpus, some c.memoryGB, none⟩ catalog.compute).«matches».find?
          (fun m => decide (m.provider = provider)) with
      | some inst =>
          [⟨"Compute", jsOr c.count 1, inst.monthlyPrice, inst.monthlyPrice * jsOr c.count 1⟩]
      | none => []
  let storageLines : List BreakdownLine :=
    match spec.storage with
    | none => []
    | some st =>
      (match st.objectGB with
       | none => []
       | some objectGB =>
         if objectGB = 0 then []
         else
           match (storageMonthlyEstimates ⟨objectGB, some StorageType.object, some StorageTier.hot⟩
               catalog.storage).find? (fun s => decide (s.provider = provider)) with
           | some opt => [⟨"Storage", objectGB, opt.monthlyCost / objectGB, opt.monthlyCost⟩]
           | none => []) ++
      (match st.blockGB with
       | none => []
       | some blockGB =>
         if blockGB = 0 then []
         else
           match (storageMonthlyEstimates ⟨blockGB, some StorageType.block, some StorageTier.hot⟩
               catalog.storage).find? (fun s => decide (s.provider = provider)) with
           | some opt => [⟨"Storage", blockGB, opt.monthlyCost / blockGB, opt.monthlyCost⟩]
           | none => [])
  let egressLines : List BreakdownLine :=
    match spec.egress with
    | none => []
    | some eg =>
      match (compareEgressEstimates catalog.egress eg.monthlyGB).find?
          (fun e => decide (e.provider = provider)) with
      | some est =>
          [⟨"Networking", eg.monthlyGB,
            if 0 < eg.monthlyGB then est.monthlyCost / eg.monthlyGB else 0, est.monthlyCost⟩]
      | none => []
  let kubernetesLines : List BreakdownLine :=
    match spec.kubernetes with
    | none => []
    | some k =>
      match (compareKubernetesEstimates catalog k.nodeCount k.nodeVcpus k.nodeMemoryGB).find?
          (fun e => decide (e.provider = provider)) with
      | none => []
      | some est =>
          (if 0 < est.controlPlaneCost then
            [⟨"Kubernetes", 1, est.controlPlaneCost, est.controlPlaneCost⟩]
          else []) ++
          [⟨"Kubernetes", k.nodeCount, est.workerNodeCost / k.nodeCount, est.workerNodeCost⟩]
  let breakdown := computeLines ++ storageLines ++ egressLines ++ kubernetesLines
  ⟨provider, breakdown, breakdown.foldl (fun sum item => sum + item.monthlyTotal) 0⟩

/-- Result of `calculateWorkloadCost` (savings narrative not modelled).
The source reads `estimates[0].provider` from the always-4-element sorted
list; this is modelled as `head?`. -/
structure WorkloadComparisonResult where
  estimates : List WorkloadCostEstimate
  cheapest : Option CloudProvider
deriving DecidableEq

/-- `calculateWorkloadCost` (calculator.ts): price the spec for all four
providers, sort ascending by total, cheapest first. -/
def calculateWorkloadCost (catalog : Catalog) (spec : WorkloadSpec) :
    WorkloadComparisonResult :=
  let ests := (providers.map fun p => calculateProviderCost catalog spec p).insertionSort
    fun a b => a.totalMonthly ≤ b.totalMonthly
  ⟨ests, ests.head?.map fun e => e.provider⟩

/-- The recommendation wording chosen by `estimateMigrationSavings`:
one wording for positive savings, one for negative, one for ~zero. -/
inductive RecommendationKind where
  | migrationSaves | currentIsCheaper | costsSimilar
deriving DecidableEq

/-- The wording choice of `estimateMigrationSavings`: positive savings,
negative savings, else the ~zero wording — branching on the RAW monthly
savings, with no rounding. -/
def chooseRecommendation (monthlySavings : ℚ) : RecommendationKind :=
  if 0 < monthlySavings then RecommendationKind.migrationSaves
  else if monthlySavings < 0 then RecommendationKind.currentIsCheaper
  else RecommendationKind.costsSimilar

/-- Result record of `estimateMigrationSavings` (the recommendation string
is modelled by which of the three wordings is chosen). -/
structure MigrationSavingsResult where
  currentCost : ℚ
  targetCost : ℚ
  monthlySavings : ℚ
  annualSavings : ℚ
  percentSavings : ℤ
  recommendation : RecommendationKind
deriving DecidableEq

/-- `estimateMigrationSavings` (calculator.ts): compute the per-provider
matrix once, pick current and target (target defaults to the cheapest),
report monthly delta, annualized ×12, rounded percent (0 when the current
cost is not positive), and a recommendation worded by the sign of the raw
monthly savings.  The source's `throw` paths are modelled as `none`. -/
def estimateMigrationSavings (catalog : Catalog) (spec : WorkloadSpec)
    (currentProvider : CloudProvider) (targetProvider : Option CloudProvider) :
    Option MigrationSavingsResult :=
  let result := calculateWorkloadCost catalog spec
  match result.estimates.find? fun e => decide (e.provider = currentProvider) with
  | none => none
  | some currentEstimate =>
    match targetProvider.orElse fun _ => result.cheapest with
    | none => none
    | some tp =>
      match result.estimates.find? fun e => decide (e.provider = tp) with
      | none => none
      | some targetEstimate =>
        let monthlySavings := currentEstimate.totalMonthly - targetEstimate.totalMonthly
        some ⟨currentEstimate.totalMonthly, targetEstimate.totalMonthly, monthlySavings,
          monthlySavings * 12,
          if 0 < currentEstimate.totalMonthly then
            round (monthlySavings / currentEstimate.totalMonthly * 100)
          else 0,
          chooseRecommendation monthlySavings⟩

/-- A cache entry (`CacheEntry<T>` in cache.ts): payload, creation time
and absolute expiry time, in milliseconds. -/
structure CacheEntry (α : Type) where
  data : α
  timestamp : ℤ
  expiresAt : ℤ
deriving DecidableEq

/-- Lookup in the insertion-ordered key/value list modelling the JS `Map`. -/
def mapFind {β : Type} (key : String) : List (String × β) → Option β
  | [] => none
  | (k, v) :: rest => if k = key then some v else mapFind key rest

/-- `Map.set`: overwrite in place if the key exists, else append. -/
def mapSet {β : Type} (key : String) (v : β) : List (String × β) → List (String × β)
  | [] => [(key, v)]
  | (k, w) :: rest => if k = key then (key, v) :: rest else (k, w) :: mapSet key v rest

/-- `Map.delete`: drop the binding of `key`. -/
def mapDelete {β : Type} (key : String) (l : List (String × β)) : List (String × β) :=
  l.filter fun p => decide (p.1 ≠ key)

/-- The pricing cache (cache.ts): a `Map` from string keys to entries plus
a default TTL in milliseconds.  `Date.now()` is modelled as an explicit
`now` argument to each operation; operations that mutate return the new
cache state. -/
structure PricingCache (α : Type) where
  cache : List (String × CacheEntry α)
  defaultTTL : ℤ
deriving DecidableEq

/-- The constructor `new PricingCache(defaultTTLMinutes = 60)`. -/
def PricingCache.init (α : Type) (defaultTTLMinutes : ℤ) : PricingCache α :=
  ⟨[], defaultTTLMinutes * 60 * 1000⟩

/-- `PricingCache.get`: absent key gives `null`; a present entry with
`now > expiresAt` is deleted and gives `null`; otherwise the data. -/
def PricingCache.get {α : Type} (c : PricingCache α) (now : ℤ) (key : String) :
    Option α × PricingCache α :=
  match mapFind key c.cache with
  | none => (none, c)
  | some entry =>
    if entry.expiresAt < now then (none, ⟨mapDelete key c.cache, c.defaultTTL⟩)
    else (some entry.data, c)

/-- The TTL selected by `set`: `ttlMinutes ? ttlMinutes * 60 * 1000 :
this.defaultTTL` — an absent or `0` (falsy) argument selects the default. -/
def effectiveTTL {α : Type} (c : PricingCache α) (ttlMinutes : Option ℤ) : ℤ :=
  match ttlMinutes with
  | some t => if t = 0 then c.defaultTTL else t * 60 * 1000
  | none => c.defaultTTL

/-- `PricingCache.set`: store `{data, timestamp: now,
expiresAt: now + ttl}` under the key, with the JS-truthy TTL selection. -/
def PricingCache.set {α : Type} (c : PricingCache α) (now : ℤ) (key : String)
    (data : α) (ttlMinutes : Option ℤ) : PricingCache α :=
  ⟨mapSet key ⟨data, now, now + effectiveTTL c ttlMinutes⟩ c.cache, c.defaultTTL⟩

/-- `PricingCache.cleanExpired`: drop every entry with `now > expiresAt`. -/
def PricingCache.cleanExpired {α : Type} (c : PricingCache α) (now : ℤ) :
    PricingCache α :=
  ⟨c.cache.filter fun p => decide (¬ p.2.expiresAt < now), c.defaultTTL⟩

/-- The record returned by `getStats`. -/
structure CacheStats where
  size : ℕ
  keys : List String
deriving DecidableEq

/-- `PricingCache.getStats`: run `cleanExpired`, then report the size and
keys of the surviving map. -/
def PricingCache.getStats {α : Type} (c : PricingCache α) (now : ℤ) :
    CacheStats × PricingCache α :=
  let c' := c.cleanExpired now
  (⟨c'.cache.length, c'.cache.map fun p => p.1⟩, c')

/-- An AWS Lightsail bundle as listed in `LIGHTSAIL_BUNDLES` (aws.ts):
both `hourlyPrice` and `monthlyPrice` are stored literals. -/
structure LightsailBundle where
  name : String
  vcpus : ℚ
  memoryGB : ℚ
  storageGB : ℚ
  transferTB : ℚ
  hourlyPrice : ℚ
  monthlyPrice : ℚ
deriving DecidableEq

/-- The manually curated `LIGHTSAIL_BUNDLES` table of aws.ts, verbatim. -/
def LIGHTSAIL_BUNDLES : List LightsailBundle :=
  [⟨"nano", 1, 0.5, 20, 1, 0.0047, 3.50⟩,
   ⟨"micro", 1, 1, 40, 2, 0.0067, 5.00⟩,
   ⟨"small", 1, 2, 60, 3, 0.0134, 10.00⟩,
   ⟨"medium", 2, 4, 80, 4, 0.0268, 20.00⟩,
   ⟨"large", 2, 8, 160, 5, 0.0536, 40.00⟩,
   ⟨"xlarge", 4, 16, 320, 6, 0.1072, 80.00⟩,
   ⟨"2xlarge", 8, 32, 640, 7, 0.2144, 160.00⟩]

/-- The monthly-price recompute used by the EC2 and RDS fetchers (aws.ts):
`Math.round(hourlyPrice * 730 * 100) / 100`. -/
def monthlyFromHourly (hourlyPrice : ℚ) : ℚ :=
  (round (hourlyPrice * 730 * 100) : ℚ) / 100

/-- The `ComputeInstance` built by `fetchAWSEC2Pricing` for one vantage.sh
item: `monthlyPrice` is recomputed from `hourlyPrice`. -/
def awsEC2Instance (name : String) (vcpus memoryGB hourlyPrice : ℚ)
    (category : ComputeCategory) (architecture : Option Architecture) : ComputeInstance :=
  ⟨CloudProvider.aws, name, vcpus, memoryGB, hourlyPrice,
    monthlyFromHourly hourlyPrice, category, architecture⟩

/-- The `ComputeInstance` built by `getAWSLightsailPricing` for one
bundle: `monthlyPrice` is the bundle's stored literal, NOT recomputed. -/
def lightsailInstance (b : LightsailBundle) : ComputeInstance :=
  ⟨CloudProvider.aws, "Lightsail " ++ b.name, b.vcpus, b.memoryGB, b.hourlyPrice,
    b.monthlyPrice, ComputeCategory.general, some Architecture.x86⟩

/-- The cache key `'aws_pricing_data'` of `CACHE_KEYS`. -/
def awsPricingKey : String := "aws_pricing_data"

/-- The cache key `'all_compute_instances'` of `CACHE_KEYS`. -/
def allComputeKey : String := "all_compute_instances"

/-- A demonstration cache of naturals holding one entry, created at time 0
and expiring at time 10, with the default 1-hour TTL in milliseconds. -/
def demoCache : PricingCache ℕ := ⟨[(awsPricingKey, ⟨5, 0, 10⟩)], 3600000⟩

/-- Demonstration AWS instance: 4 vCPU / 16 GB, $0.14/hr, $102.20/mo. -/
def awsDemoInstance : ComputeInstance :=
  ⟨CloudProvider.aws, "m5.xlarge", 4, 16, 0.14, 102.20,
    ComputeCategory.general, some Architecture.x86⟩

/-- Demonstration OCI instance: 4 vCPU / 16 GB, $51.10/mo (half of AWS). -/
def ociDemoInstance : ComputeInstance :=
  ⟨CloudProvider.oci, "VM.Standard3.Flex.4.16", 4, 16, 0.07, 51.10,
    ComputeCategory.general, some Architecture.x86⟩

/-- Demonstration ARM instance whose `category` field is NOT `arm`:
only its `architecture` is. -/
def armDemoInstance : ComputeInstance :=
  ⟨CloudProvider.gcp, "t2a-standard-4", 4, 16, 0.05, 36.50,
    ComputeCategory.general, some Architecture.arm⟩

/-- The workload spec with no populated sub-request. -/
def emptyWorkloadSpec : WorkloadSpec := ⟨none, none, none, none⟩

/-- A small demonstration catalog holding the two demo instances. -/
def demoCatalog : Catalog :=
  ⟨[awsDemoInstance, ociDemoInstance], [], [], fun _ => none⟩

/-- Migration demonstration: AWS instance at $100.80/mo. -/
def awsMigInstance : ComputeInstance :=
  ⟨CloudProvider.aws, "aws-small", 2, 4, 0, 100.8, ComputeCategory.general, none⟩

/-- Migration demonstration: Azure instance at $100.40/mo. -/
def azureMigInstance : ComputeInstance :=
  ⟨CloudProvider.azure, "azure-small", 2, 4, 0, 100.4, ComputeCategory.general, none⟩

/-- Catalog for the migration demonstration: an AWS instance at $100.80/mo
and an Azure instance at $100.40/mo, both matching a (2, 4) request. -/
def migrationDemoCatalog : Catalog :=
  ⟨[awsMigInstance, azureMigInstance], [], [], fun _ => none⟩

/-- Workload for the migration demonstration: one 2 vCPU / 4 GB instance. -/
def migrationDemoSpec : WorkloadSpec := ⟨some ⟨2, 4, some 1⟩, none, none, none⟩

/-- Per-provider workload estimates of the migration demonstration. -/
def awsMigEstimate : WorkloadCostEstimate :=
  ⟨CloudProvider.aws, [⟨"Compute", 1, 100.8, 100.8⟩], 100.8⟩

/-- Azure estimate of the migration demonstration. -/
def azureMigEstimate : WorkloadCostEstimate :=
  ⟨CloudProvider.azure, [⟨"Compute", 1, 100.4, 100.4⟩], 100.4⟩

/-- GCP estimate of the migration demonstration (no matching instance). -/
def gcpMigEstimate : WorkloadCostEstimate := ⟨CloudProvider.gcp, [], 0⟩

/-- OCI estimate of the migration demonstration (no matching instance). -/
def ociMigEstimate : WorkloadCostEstimate := ⟨CloudProvider.oci, [], 0⟩

/-- The migration result computed for the demonstration workload, AWS →
Azure: savings $0.40/mo, $4.80/yr, 0 percent after rounding, and the
positive-savings wording. -/
def migrationDemoResult : MigrationSavingsResult :=
  ⟨100.8, 100.4, 0.4, 4.8, 0, RecommendationKind.migrationSaves⟩

/-- The first Lightsail bundle (`nano`). -/
def nanoBundle : LightsailBundle := ⟨"nano", 1, 0.5, 20, 1, 0.0047, 3.50⟩

lemma egressWalk_of_nonpos (F : ℚ) (tiers : List EgressTier) {r : ℚ} (h : r ≤ 0) :
    egressWalk F tiers r = 0 := by
  cases tiers with
  | nil => rfl
  | cons t ts => simp [egressWalk, h]

lemma egressWalkSpec_zero (F : ℚ) (tiers : List EgressTier) :
    egressWalkSpec F tiers 0 = 0 := by
  cases tiers with
  | nil => rfl
  | cons t ts => simp [egressWalkSpec]

/-- Under the data-model invariant that every finite tier ceiling is at
least the free allowance, the source's tier walk and the specification's
wording of it agree (for nonnegative remainders). -/
lemma egressWalk_eq_spec (F : ℚ) (tiers : List EgressTier)
    (hF : ∀ t ∈ tiers, t.upToGB ≠ -1 → F ≤ t.upToGB) :
    ∀ r : ℚ, 0 ≤ r → egressWalk F tiers r = egressWalkSpec F tiers r := by
  induction tiers with
  | nil => intro r _; rfl
  | cons t ts ih =>
    intro r hr
    have hts : ∀ u ∈ ts, u.upToGB ≠ -1 → F ≤ u.upToGB := by
      intro u hu; exact hF u (List.mem_cons_of_mem t hu)
    rcases eq_or_lt_of_le hr with hr0 | hrpos
    · rw [← hr0]
      rw [egressWalk_of_nonpos F _ le_rfl, egressWalkSpec_zero]
    · rw [egressWalk, egressWalkSpec]
      rw [if_neg (not_le.mpr hrpos), if_neg (ne_of_gt hrpos)]
      by_cases hinf : t.upToGB = -1
      · rw [gbInTier, if_pos hinf, if_pos hrpos, sub_self,
          egressWalk_of_nonpos F ts le_rfl, egressWalkSpec_zero]
      · rw [gbInTier, if_neg hinf]
        have hcap : 0 ≤ t.upToGB - F := sub_nonneg.mpr (hF t (List.mem_cons_self t ts) hinf)
        by_cases hg : 0 < min r (t.upToGB - F)
        · rw [if_pos hg]
          rw [ih hts (r - min r (t.upToGB - F)) (by simp [sub_nonneg, min_le_left])]
        · rw [if_neg hg]
          have hmin : min r (t.upToGB - F) = 0 :=
            le_antisymm (not_lt.mp hg) (le_min hrpos.le hcap)
          rw [hmin, zero_mul, zero_add, sub_zero]
          exact ih hts r hrpos.le

lemma egressWalk_nonneg (F : ℚ) {tiers : List EgressTier}
    (hp : ∀ t ∈ tiers, 0 ≤ t.pricePerGB) (r : ℚ) : 0 ≤ egressWalk F tiers r := by
  induction tiers generalizing r with
  | nil => simp [egressWalk]
  | cons t ts ih =>
    have hts : ∀ u ∈ ts, 0 ≤ u.pricePerGB := fun u hu => hp u (List.mem_cons_of_mem t hu)
    rw [egressWalk]
    by_cases hr : r ≤ 0
    · rw [if_pos hr]
    · rw [if_neg hr]
      by_cases hg : 0 < gbInTier t F r
      · rw [if_pos hg]
        exact add_nonneg (mul_nonneg hg.le (hp t (List.mem_cons_self t ts))) (ih hts _)
      · rw [if_neg hg]
        exact ih hts _

lemma sub_min_eq_max_sub (r c : ℚ) : r - min r c = max 0 (r - c) := by
  rcases le_total r c with h | h
  · rw [min_eq_left h, sub_self, max_eq_left (sub_nonpos.mpr h)]
  · rw [min_eq_right h, max_eq_right (sub_nonneg.mpr h)]

lemma egressWalk_mono (F : ℚ) {tiers : List EgressTier}
    (hp : ∀ t ∈ tiers, 0 ≤ t.pricePerGB) {r1 r2 : ℚ} (h12 : r1 ≤ r2) :
    egressWalk F tiers r1 ≤ egressWalk F tiers r2 := by
  induction tiers generalizing r1 r2 with
  | nil => simp [egressWalk]
  | cons t ts ih =>
    have hts : ∀ u ∈ ts, 0 ≤ u.pricePerGB := fun u hu => hp u (List.mem_cons_of_mem t hu)
    have hpt : 0 ≤ t.pricePerGB := hp t (List.mem_cons_self t ts)
    by_cases h1 : r1 ≤ 0
    · rw [egressWalk_of_nonpos F _ h1]
      exact egressWalk_nonneg F hp r2
    · have h2 : ¬ r2 ≤ 0 := fun h => h1 (h12.trans h)
      rw [egressWalk, egressWalk, if_neg h1, if_neg h2]
      by_cases hinf : t.upToGB = -1
      · rw [gbInTier, gbInTier, if_pos hinf, if_pos hinf,
          if_pos (not_le.mp h1), if_pos (not_le.mp h2), sub_self, sub_self,
          egressWalk_of_nonpos F ts le_rfl]
        exact add_le_add (mul_le_mul_of_nonneg_right h12 hpt) le_rfl
      · rw [gbInTier, gbInTier, if_neg hinf, if_neg hinf]
        by_cases hg1 : 0 < min r1 (t.upToGB - F)
        · have hc : 0 < t.upToGB - F := lt_of_lt_of_le hg1 (min_le_right _ _)
          have hg2 : 0 < min r2 (t.upToGB - F) := lt_min (lt_of_lt_of_le (not_le.mp h1) h12) hc
          rw [if_pos hg1, if_pos hg2]
          refine add_le_add (mul_le_mul_of_nonneg_right (min_le_min h12 le_rfl) hpt) ?_
          refine ih hts ?_
          rw [sub_min_eq_max_sub, sub_min_eq_max_sub]
          exact max_le_max le_rfl (sub_le_sub_right h12 _)
        · have hg2 : ¬ 0 < min r2 (t.upToGB - F) := by
            intro h'
            exact hg1 (lt_min (not_le.mp h1) (lt_of_lt_of_le h' (min_le_right _ _)))
          rw [if_neg hg1, if_neg hg2]
          exact ih hts h12

lemma capSum_nonneg (F : ℚ) (tiers : List EgressTier) :
    0 ≤ (tiers.map fun t => max (t.upToGB - F) 0).sum :=
  List.sum_nonneg fun x hx => by
    obtain ⟨t, _, rfl⟩ := List.mem_map.mp hx
    exact le_max_right _ _

lemma capPriceSum_of_nonpos (F : ℚ) {tiers : List EgressTier}
    (h : (tiers.map fun t => max (t.upToGB - F) 0).sum ≤ 0) :
    (tiers.map fun t => max (t.upToGB - F) 0 * t.pricePerGB).sum = 0 := by
  induction tiers with
  | nil => rfl
  | cons t ts ih =>
    rw [List.map_cons, List.sum_cons] at h ⊢
    have hrest : 0 ≤ (ts.map fun t => max (t.upToGB - F) 0).sum := capSum_nonneg F ts
    have hhead : max (t.upToGB - F) 0 = 0 :=
      le_antisymm (by linarith) (le_max_right _ _)
    rw [hhead, zero_mul, zero_add]
    exact ih (by linarith)

lemma egressWalk_saturated (F : ℚ) {tiers : List EgressTier}
    (hno : ∀ t ∈ tiers, t.upToGB ≠ -1) :
    ∀ r : ℚ, (tiers.map fun t => max (t.upToGB - F) 0).sum ≤ r →
    egressWalk F tiers r = (tiers.map fun t => max (t.upToGB - F) 0 * t.pricePerGB).sum := by
  induction tiers with
  | nil => intro r _; rfl
  | cons t ts ih =>
    intro r hr
    have hts : ∀ u ∈ ts, u.upToGB ≠ -1 := fun u hu => hno u (List.mem_cons_of_mem t hu)
    rw [List.map_cons, List.sum_cons] at hr
    have hrest : 0 ≤ (ts.map fun t => max (t.upToGB - F) 0).sum := capSum_nonneg F ts
    rw [List.map_cons, List.sum_cons]
    by_cases h0 : r ≤ 0
    · rw [egressWalk_of_nonpos F _ h0]
      have hhead : max (t.upToGB - F) 0 = 0 :=
        le_antisymm (by linarith) (le_max_right _ _)
      rw [hhead, zero_mul, zero_add]
      exact (capPriceSum_of_nonpos F (by linarith)).symm
    · rw [egressWalk, if_neg h0, gbInTier, if_neg (hno t (List.mem_cons_self t ts))]
      by_cases hg : 0 < min r (t.upToGB - F)
      · rw [if_pos hg]
        have hc : 0 < t.upToGB - F := lt_of_lt_of_le hg (min_le_right _ _)
        have hcr : t.upToGB - F ≤ r := by
          have : max (t.upToGB - F) 0 = t.upToGB - F := max_eq_left hc.le
          linarith [hr, hrest, this.symm.le]
        rw [min_eq_right hcr, max_eq_left hc.le]
        rw [ih hts (r - (t.upToGB - F)) (by rw [max_eq_left hc.le] at hr; linarith)]
      · rw [if_neg hg]
        have hc : t.upToGB - F ≤ 0 := by
          by_contra h
          exact hg (lt_min (not_le.mp h0) (not_le.mp h))
        have hhead : max (t.upToGB - F) 0 = 0 := max_eq_right hc
        rw [hhead, zero_mul, zero_add]
        rw [hhead] at hr
        exact ih hts r (by linarith)

/-- C1: for every egress pricing record with free allowance `F` and
ordered tiers (every finite ceiling at least `F`, per the data-model
invariant), `compareEgress` computes `billable = max(0, Q − F)` and then
the tier walk exactly as the specification words it, each finite tier
contributing `min(remaining, upToGB − F)` GB at its price and the
unbounded tier all remaining GB; in particular `F = 100`,
tiers `[{10240, 0.09}, {−1, 0.05}]`, `Q = 20000` gives billable `19900`
and total `1400.60`. -/
theorem egress_tiered_cost_correct :
    (∀ (F : ℚ) (tiers : List EgressTier) (Q : ℚ),
        (∀ t ∈ tiers, t.upToGB ≠ -1 → F ≤ t.upToGB) →
        egressMonthlyCost F tiers Q = egressMonthlyCostSpec F tiers Q)
    ∧ max 0 ((20000 : ℚ) - 100) = 19900
    ∧ egressMonthlyCost 100 demoTiers 20000 = 1400.60 := by
  refine ⟨?_, by norm_num, ?_⟩
  · intro F tiers Q hF
    unfold egressMonthlyCost egressMonthlyCostSpec
    exact egressWalk_eq_spec F tiers hF _ (le_max_left 0 _)
  · norm_num [egressMonthlyCost, demoTiers, egressWalk, gbInTier]

/-- Witness for C1 at the scenario record. -/
theorem egress_tiered_cost_correct_witness :
    egressMonthlyCost 100 demoTiers 20000 = egressMonthlyCostSpec 100 demoTiers 20000 :=
  egress_tiered_cost_correct.1 100 demoTiers 20000 (by
    intro t ht
    simp only [demoTiers, List.mem_cons, List.not_mem_nil, or_false] at ht
    rcases ht with rfl | rfl <;> norm_num)

/-- C2: the computed egress cost is `0` whenever the requested volume is
within the free allowance, and under nonnegative tier prices it is
monotonically non-decreasing in the requested volume. -/
theorem egress_cost_free_allowance_and_monotone :
    (∀ (F : ℚ) (tiers : List EgressTier) (Q : ℚ), Q ≤ F →
        egressMonthlyCost F tiers Q = 0)
    ∧ (∀ (F : ℚ) (tiers : List EgressTier),
        (∀ t ∈ tiers, 0 ≤ t.pricePerGB) →
        ∀ Q1 Q2 : ℚ, Q1 ≤ Q2 →
        egressMonthlyCost F tiers Q1 ≤ egressMonthlyCost F tiers Q2) := by
  constructor
  · intro F tiers Q h
    unfold egressMonthlyCost
    rw [max_eq_left (sub_nonpos.mpr h)]
    exact egressWalk_of_nonpos F tiers le_rfl
  · intro F tiers hp Q1 Q2 h
    exact egressWalk_mono F hp (max_le_max le_rfl (sub_le_sub_right h F))

/-- Witness for C2 at the scenario record. -/
theorem egress_cost_free_allowance_and_monotone_witness :
    egressMonthlyCost 100 demoTiers 50 = 0 ∧
    egressMonthlyCost 100 demoTiers 200 ≤ egressMonthlyCost 100 demoTiers 300 := by
  constructor
  · exact egress_cost_free_allowance_and_monotone.1 100 demoTiers 50 (by norm_num)
  · refine egress_cost_free_allowance_and_monotone.2 100 demoTiers ?_ 200 300 (by norm_num)
    intro t ht
    simp only [demoTiers, List.mem_cons, List.not_mem_nil, or_false] at ht
    rcases ht with rfl | rfl <;> norm_num

/-- C8: when the tier list has no unbounded terminal tier, the computation
still goes through (the walk is total), and once the billable GB reaches
the total walkable capacity of the finite tiers the excess is silently
dropped: the total is exactly the sum contributed by the finite tiers. -/
theorem egress_no_unbounded_tier_drops_excess :
    ∀ (F : ℚ) (tiers : List EgressTier) (Q : ℚ),
      (∀ t ∈ tiers, t.upToGB ≠ -1) →
      (tiers.map fun t => max (t.upToGB - F) 0).sum ≤ max 0 (Q - F) →
      egressMonthlyCost F tiers Q =
        (tiers.map fun t => max (t.upToGB - F) 0 * t.pricePerGB).sum := by
  intro F tiers Q hno hcap
  exact egressWalk_saturated F hno _ hcap

/-- Witness for C8: one finite 100 GB tier at price 1, no unbounded tier,
500 GB requested — only the 100 GB inside the tier are charged. -/
theorem egress_no_unbounded_tier_drops_excess_witness :
    egressMonthlyCost 0 [⟨100, 1⟩] 500 =
      (([⟨100, 1⟩] : List EgressTier).map fun t => max (t.upToGB - 0) 0 * t.pricePerGB).sum :=
  egress_no_unbounded_tier_drops_excess 0 [⟨100, 1⟩] 500
    (by intro t ht; simp only [List.mem_cons, List.not_mem_nil, or_false] at ht
        subst ht; norm_num)
    (by norm_num)

lemma mem_computeMatches_none (v m : ℚ) (l : List ComputeInstance) (i : ComputeInstance) :
    i ∈ computeMatches ⟨some v, some m, none⟩ l ↔ i ∈ l ∧ matchesSpecs v m i := by
  simp [computeMatches, List.mem_filter]

lemma mem_computeMatches_arm (v m : ℚ) (l : List ComputeInstance) (i : ComputeInstance) :
    i ∈ computeMatches ⟨some v, some m, some ComputeCategory.arm⟩ l ↔
      (i ∈ l ∧ matchesSpecs v m i) ∧ i.architecture = some Architecture.arm := by
  simp only [computeMatches, List.mem_filter, decide_eq_true_eq]
  tauto

/-- C3: `compareCompute` accepts an instance exactly when it lies in the
inclusive 50%-band window around the request on both axes; a request value
of `0` degenerates its axis to exactly `{0}`; an instance equal to the
request always matches (for nonnegative requests); and the `arm` category
filter restricts the window-accepted set by `architecture = arm`, not by
the `category` field. -/
theorem compareCompute_window_and_arm_filter :
    (∀ (v m : ℚ) (l : List ComputeInstance) (i : ComputeInstance),
        (i ∈ computeMatches ⟨some v, some m, none⟩ l ↔
          i ∈ l ∧ v * 0.5 ≤ i.vcpus ∧ i.vcpus ≤ v * 1.5 ∧
            m * 0.5 ≤ i.memoryGB ∧ i.memoryGB ≤ m * 1.5)
        ∧ (i ∈ computeMatches ⟨some v, some m, some ComputeCategory.arm⟩ l ↔
            i ∈ computeMatches ⟨some v, some m, none⟩ l ∧
              i.architecture = some Architecture.arm))
    ∧ (∀ (m : ℚ) (l : List ComputeInstance) (i : ComputeInstance),
        i ∈ computeMatches ⟨some 0, some m, none⟩ l ↔
          i ∈ l ∧ i.vcpus = 0 ∧ m * 0.5 ≤ i.memoryGB ∧ i.memoryGB ≤ m * 1.5)
    ∧ (∀ (v m : ℚ) (l : List ComputeInstance) (i : ComputeInstance),
        0 ≤ v → 0 ≤ m → i ∈ l → i.vcpus = v → i.memoryGB = m →
        i ∈ computeMatches ⟨some v, some m, none⟩ l) := by
  refine ⟨fun v m l i => ⟨?_, ?_⟩, fun m l i => ?_, fun v m l i hv hm hil hiv him => ?_⟩
  · rw [mem_computeMatches_none, matchesSpecs]
  · rw [mem_computeMatches_arm, mem_computeMatches_none]
  · rw [mem_computeMatches_none, matchesSpecs]
    constructor
    · rintro ⟨hil, h1, h2, h3, h4⟩
      exact ⟨hil, le_antisymm (by linarith) (by linarith), h3, h4⟩
    · rintro ⟨hil, h1, h3, h4⟩
      refine ⟨hil, by rw [h1]; norm_num, by rw [h1]; norm_num, h3, h4⟩
  · rw [mem_computeMatches_none, matchesSpecs, hiv, him]
    refine ⟨hil, by linarith, by linarith, by linarith, by linarith⟩

/-- Witness for C3: a 4 vCPU / 16 GB instance matches the (4, 16) request,
and the `arm` filter keeps an instance whose `category` is `general` but
whose `architecture` is `arm`. -/
theorem compareCompute_window_and_arm_filter_witness :
    awsDemoInstance ∈ computeMatches ⟨some 4, some 16, none⟩ [awsDemoInstance] ∧
    armDemoInstance ∈ computeMatches ⟨some 4, some 16, some ComputeCategory.arm⟩
      [armDemoInstance] := by
  constructor
  · exact compareCompute_window_and_arm_filter.2.2 4 16 [awsDemoInstance] awsDemoInstance
      (by norm_num) (by norm_num) (List.mem_cons_self _ _) rfl rfl
  · refine ((compareCompute_window_and_arm_filter.1 4 16 [armDemoInstance] armDemoInstance).2).mpr
      ⟨compareCompute_window_and_arm_filter.2.2 4 16 [armDemoInstance] armDemoInstance
        (by norm_num) (by norm_num) (List.mem_cons_self _ _) rfl rfl, rfl⟩

lemma mem_sortedComputeMatches (q : ComputeComparisonQuery) (l : List ComputeInstance)
    (a : ComputeInstance) : a ∈ sortedComputeMatches q l ↔ a ∈ computeMatches q l :=
  (List.perm_insertionSort _ _).mem_iff

/-- C4: `savingsVsAWS` is present iff the match set contains an AWS
instance and the (existing) cheapest match is non-AWS; when present it is
`round((aws − cheapest) / aws × 100)` for the first AWS instance of the
sorted match list; when no AWS instance matches it is absent, never `0`. -/
theorem compareCompute_savingsVsAWS :
    ∀ (q : ComputeComparisonQuery) (l : List ComputeInstance),
      ((compareCompute q l).savingsVsAWS.isSome ↔
        (∃ a ∈ computeMatches q l, a.provider = CloudProvider.aws) ∧
          ∃ c, (compareCompute q l).cheapest = some c ∧ c.provider ≠ CloudProvider.aws)
      ∧ (∀ c a, (compareCompute q l).cheapest = some c →
          c.provider ≠ CloudProvider.aws →
          (sortedComputeMatches q l).find?
              (fun i => decide (i.provider = CloudProvider.aws)) = some a →
          (compareCompute q l).savingsVsAWS =
            some (round ((a.monthlyPrice - c.monthlyPrice) / a.monthlyPrice * 100)))
      ∧ ((∀ a ∈ computeMatches q l, a.provider ≠ CloudProvider.aws) →
          (compareCompute q l).savingsVsAWS = none) := by
  intro q l
  refine ⟨?_, ?_, ?_⟩
  · cases hh : (sortedComputeMatches q l).head? with
    | none =>
      have hnil : sortedComputeMatches q l = [] := List.head?_eq_none_iff.mp hh
      simp only [compareCompute, hh]
      constructor
      · intro h; cases h
      · rintro ⟨-, c, hc, -⟩; cases hc
    | some c =>
      cases hf : (sortedComputeMatches q l).find?
          (fun i => decide (i.provider = CloudProvider.aws)) with
      | none =>
        have hnone : ∀ a ∈ computeMatches q l, ¬ a.provider = CloudProvider.aws := by
          intro a ha
          have := List.find?_eq_none.mp hf a ((mem_sortedComputeMatches q l a).mpr ha)
          simpa using this
        simp only [compareCompute, hh, hf]
        constructor
        · intro h; cases h
        · rintro ⟨⟨a, ha, haws⟩, -⟩; exact absurd haws (hnone a ha)
      | some a =>
        have haws : a.provider = CloudProvider.aws := by
          have := List.find?_some hf
          simpa using this
        have hamem : a ∈ computeMatches q l :=
          (mem_sortedComputeMatches q l a).mp (List.mem_of_find?_eq_some hf)
        simp only [compareCompute, hh, hf]
        by_cases hc : c.provider = CloudProvider.aws
        · rw [if_pos hc]
          constructor
          · intro h; cases h
          · rintro ⟨-, c', hc', hne⟩
            cases hc'
            exact absurd hc hne
        · rw [if_neg hc]
          constructor
          · intro _; exact ⟨⟨a, hamem, haws⟩, c, rfl, hc⟩
          · intro _; rfl
  · intro c a hc hcne hf
    have hh : (sortedComputeMatches q l).head? = some c := hc
    simp only [compareCompute, hh, hf, if_neg hcne]
  · intro hnone
    have hf : (sortedComputeMatches q l).find?
        (fun i => decide (i.provider = CloudProvider.aws)) = none := by
      refine List.find?_eq_none.mpr fun a ha => ?_
      simpa using hnone a ((mem_sortedComputeMatches q l a).mp ha)
    cases hh : (sortedComputeMatches q l).head? with
    | none => simp only [compareCompute, hh, hf]
    | some c => simp only [compareCompute, hh, hf]

/-- Witness for C4: with one AWS and one cheaper OCI match, the savings
field is the rounded percentage versus the AWS instance. -/
theorem compareCompute_savingsVsAWS_witness :
    (compareCompute ⟨some 4, some 16, none⟩ [awsDemoInstance, ociDemoInstance]).savingsVsAWS =
      some (round ((awsDemoInstance.monthlyPrice - ociDemoInstance.monthlyPrice) /
        awsDemoInstance.monthlyPrice * 100)) := by
  refine (compareCompute_savingsVsAWS ⟨some 4, some 16, none⟩
      [awsDemoInstance, ociDemoInstance]).2.1 ociDemoInstance awsDemoInstance ?_ ?_ ?_
  · norm_num [compareCompute, sortedComputeMatches, computeMatches, matchesSpecs,
      List.insertionSort, List.orderedInsert, awsDemoInstance, ociDemoInstance]
  · norm_num [ociDemoInstance]
    decide
  · norm_num [sortedComputeMatches, computeMatches, matchesSpecs,
      List.insertionSort, List.orderedInsert, List.find?, awsDemoInstance, ociDemoInstance]
    rfl

lemma mapFind_filter_ne {β : Type} (key : String) (l : List (String × β)) :
    mapFind key (l.filter fun p => decide (p.1 ≠ key)) = none := by
  induction l with
  | nil => rfl
  | cons p rest ih =>
    obtain ⟨k, w⟩ := p
    rw [List.filter_cons]
    by_cases h : k = key
    · rw [if_neg (by simp [h])]
      exact ih
    · rw [if_pos (by simp [h])]
      rw [mapFind, if_neg h]
      exact ih

lemma mapFind_mapDelete {β : Type} (key : String) (l : List (String × β)) :
    mapFind key (mapDelete key l) = none := by
  rw [mapDelete]; exact mapFind_filter_ne key l

lemma mapFind_mapSet {β : Type} (key : String) (v : β) (l : List (String × β)) :
    mapFind key (mapSet key v l) = some v := by
  induction l with
  | nil => rw [mapSet, mapFind, if_pos rfl]
  | cons p rest ih =>
    obtain ⟨k, w⟩ := p
    rw [mapSet]
    by_cases h : k = key
    · rw [if_pos h, mapFind, if_pos rfl]
    · rw [if_neg h, mapFind, if_neg h]
      exact ih

/-- C5: with the clock as an explicit parameter, `get` strictly after an
entry's expiry returns absent and removes the entry (as for an absent
key); `getStats` counts and lists only unexpired entries; and `set`
followed by `get` at or before the resulting expiry returns the value. -/
theorem cache_lazy_expiry :
    ∀ (α : Type) (c : PricingCache α) (now : ℤ) (key : String),
      (∀ e : CacheEntry α, mapFind key c.cache = some e → e.expiresAt < now →
        (c.get now key).1 = none ∧ mapFind key (c.get now key).2.cache = none)
      ∧ ((c.getStats now).1.size =
          (c.cache.filter fun p => decide (¬ p.2.expiresAt < now)).length
        ∧ ∀ k ∈ (c.getStats now).1.keys,
            ∃ e : CacheEntry α, (k, e) ∈ c.cache ∧ ¬ e.expiresAt < now)
      ∧ ∀ (v : α) (ttl : Option ℤ) (now2 : ℤ),
          now2 ≤ now + effectiveTTL c ttl →
          ((c.set now key v ttl).get now2 key).1 = some v := by
  intro α c now key
  refine ⟨?_, ⟨?_, ?_⟩, ?_⟩
  · intro e he hexp
    simp only [PricingCache.get, he, if_pos hexp]
    exact ⟨by trivial, mapFind_mapDelete key c.cache⟩
  · rfl
  · intro k hk
    simp only [PricingCache.getStats, PricingCache.cleanExpired, List.mem_map] at hk
    obtain ⟨p, hp, hpk⟩ := hk
    rw [List.mem_filter] at hp
    obtain ⟨k', e⟩ := p
    cases hpk
    exact ⟨e, hp.1, by simpa using hp.2⟩
  · intro v ttl now2 h2
    simp only [PricingCache.set, PricingCache.get, mapFind_mapSet]
    rw [if_neg (not_lt.mpr h2)]

/-- Witness for C5: the demo entry expires at 10, so `get` at time 11
misses and evicts; a fresh `set` with a 1-minute TTL at time 0 is still
readable at time 59999. -/
theorem cache_lazy_expiry_witness :
    ((demoCache.get 11 awsPricingKey).1 = none ∧
      mapFind awsPricingKey (demoCache.get 11 awsPricingKey).2.cache = none) ∧
    ((demoCache.set 0 allComputeKey 7 (some 1)).get 59999 allComputeKey).1 = some 7 := by
  constructor
  · exact (cache_lazy_expiry ℕ demoCache 11 awsPricingKey).1 ⟨5, 0, 10⟩
      (by simp [demoCache, mapFind]) (by norm_num)
  · exact (cache_lazy_expiry ℕ demoCache 0 allComputeKey).2.2 7 (some 1) 59999
      (by norm_num [effectiveTTL, demoCache])

/-- C10: `set` with an explicit TTL of 0 minutes is indistinguishable from
omitting the TTL — `0` is falsy, so the default TTL is used, not an
immediately-expired entry. -/
theorem cache_set_zero_ttl_uses_default :
    ∀ (α : Type) (c : PricingCache α) (now : ℤ) (key : String) (v : α),
      c.set now key v (some 0) = c.set now key v none := by
  intro α c now key v
  simp [PricingCache.set, effectiveTTL]

lemma foldl_add_monthlyTotal (l : List BreakdownLine) :
    l.foldl (fun sum item => sum + item.monthlyTotal) 0 =
      (l.map fun b => b.monthlyTotal).sum := by
  suffices h : ∀ init : ℚ, l.foldl (fun sum item => sum + item.monthlyTotal) init =
      init + (l.map fun b => b.monthlyTotal).sum by
    rw [h 0, zero_add]
  induction l with
  | nil => intro init; simp
  | cons b rest ih =>
    intro init
    rw [List.foldl_cons, ih, List.map_cons, List.sum_cons, add_assoc]

/-- C6: for every workload spec and provider, the reported monthly total
is the sum of the breakdown line totals; a spec with no populated
sub-request yields an empty breakdown and total 0 for every provider. -/
theorem workload_total_is_breakdown_sum :
    ∀ (catalog : Catalog) (spec : WorkloadSpec) (provider : CloudProvider),
      (calculateProviderCost catalog spec provider).totalMonthly =
        ((calculateProviderCost catalog spec provider).breakdown.map
          fun b => b.monthlyTotal).sum
      ∧ (spec.compute = none → spec.storage = none → spec.egress = none →
          spec.kubernetes = none →
          (calculateProviderCost catalog spec provider).breakdown = [] ∧
          (calculateProviderCost catalog spec provider).totalMonthly = 0) := by
  intro catalog spec provider
  constructor
  · simp only [calculateProviderCost]
    exact foldl_add_monthlyTotal _
  · intro h1 h2 h3 h4
    simp [calculateProviderCost, h1, h2, h3, h4]

/-- Witness for C6: the empty spec prices to an empty breakdown and 0. -/
theorem workload_total_is_breakdown_sum_witness :
    (calculateProviderCost demoCatalog emptyWorkloadSpec CloudProvider.aws).breakdown = [] ∧
    (calculateProviderCost demoCatalog emptyWorkloadSpec CloudProvider.aws).totalMonthly = 0 :=
  (workload_total_is_breakdown_sum demoCatalog emptyWorkloadSpec CloudProvider.aws).2
    rfl rfl rfl rfl

lemma chooseRecommendation_costsSimilar (ms : ℚ) :
    chooseRecommendation ms = RecommendationKind.costsSimilar ↔ ms = 0 := by
  unfold chooseRecommendation
  split_ifs with h1 h2
  · simp [ne_of_gt h1]
  · simp [ne_of_lt h2]
  · have h : ms = 0 := le_antisymm (not_lt.mp h1) (not_lt.mp h2)
    simp [h]

lemma chooseRecommendation_migrationSaves (ms : ℚ) :
    chooseRecommendation ms = RecommendationKind.migrationSaves ↔ 0 < ms := by
  unfold chooseRecommendation
  split_ifs with h1 h2
  · simp [h1]
  · simp [not_lt.mpr h2.le]
  · simp [h1]

lemma chooseRecommendation_currentIsCheaper (ms : ℚ) :
    chooseRecommendation ms = RecommendationKind.currentIsCheaper ↔ ms < 0 := by
  unfold chooseRecommendation
  split_ifs with h1 h2
  · simp [not_lt.mpr h1.le]
  · simp [h2]
  · simp [h2]

/-- C7 amended: `estimateMigrationSavings` reports `annualSavings = 12 ×
monthlySavings`, defaults the target to the cheapest provider when none is
given, and picks the three wordings by the sign of the RAW monthly
savings: the ~zero wording exactly when the savings is exactly 0 (not 0
after rounding). -/
theorem migration_savings_shape :
    (∀ (catalog : Catalog) (spec : WorkloadSpec) (cur : CloudProvider)
        (tgt : Option CloudProvider) (res : MigrationSavingsResult),
        estimateMigrationSavings catalog spec cur tgt = some res →
        res.annualSavings = 12 * res.monthlySavings
        ∧ (res.recommendation = RecommendationKind.costsSimilar ↔ res.monthlySavings = 0)
        ∧ (res.recommendation = RecommendationKind.migrationSaves ↔ 0 < res.monthlySavings)
        ∧ (res.recommendation = RecommendationKind.currentIsCheaper ↔ res.monthlySavings < 0))
    ∧ (∀ (catalog : Catalog) (spec : WorkloadSpec) (cur p : CloudProvider),
        (calculateWorkloadCost catalog spec).cheapest = some p →
        estimateMigrationSavings catalog spec cur none =
          estimateMigrationSavings catalog spec cur (some p)) := by
  constructor
  · intro catalog spec cur tgt res h
    simp only [estimateMigrationSavings] at h
    rcases hcur : (calculateWorkloadCost catalog spec).estimates.find?
        (fun e => decide (e.provider = cur)) with _ | currentEstimate
    · simp only [hcur] at h
      exact Option.noConfusion h
    · simp only [hcur] at h
      rcases htp : tgt.orElse (fun _ => (calculateWorkloadCost catalog spec).cheapest)
          with _ | tp
      · simp only [htp] at h
        exact Option.noConfusion h
      · simp only [htp] at h
        rcases htgt : (calculateWorkloadCost catalog spec).estimates.find?
            (fun e => decide (e.provider = tp)) with _ | targetEstimate
        · simp only [htgt] at h
          exact Option.noConfusion h
        · simp only [htgt] at h
          injection h with h
          subst h
          exact ⟨mul_comm _ 12, chooseRecommendation_costsSimilar _,
            chooseRecommendation_migrationSaves _, chooseRecommendation_currentIsCheaper _⟩
  · intro catalog spec cur p hp
    rcases hfind : (calculateWorkloadCost catalog spec).estimates.find?
        (fun e => decide (e.provider = cur)) with _ | ce
    · simp only [estimateMigrationSavings, hfind]
    · simp only [estimateMigrationSavings, hfind, hp, Option.orElse]

lemma migMatches_eval :
    (compareCompute ⟨some 2, some 4, none⟩ migrationDemoCatalog.compute).«matches» =
      [azureMigInstance, awsMigInstance] := by
  norm_num [compareCompute, sortedComputeMatches, computeMatches, matchesSpecs,
    migrationDemoCatalog, awsMigInstance, azureMigInstance,
    List.insertionSort, List.orderedInsert]

lemma migFindAws :
    (compareCompute ⟨some 2, some 4, none⟩ migrationDemoCatalog.compute).«matches».find?
      (fun m => decide (m.provider = CloudProvider.aws)) = some awsMigInstance := by
  rw [migMatches_eval]
  norm_num [awsMigInstance, azureMigInstance]
  all_goals decide

lemma migFindAzure :
    (compareCompute ⟨some 2, some 4, none⟩ migrationDemoCatalog.compute).«matches».find?
      (fun m => decide (m.provider = CloudProvider.azure)) = some azureMigInstance := by
  rw [migMatches_eval]
  norm_num [awsMigInstance, azureMigInstance]

lemma migFindGcp :
    (compareCompute ⟨some 2, some 4, none⟩ migrationDemoCatalog.compute).«matches».find?
      (fun m => decide (m.provider = CloudProvider.gcp)) = none := by
  rw [migMatches_eval]
  norm_num [awsMigInstance, azureMigInstance]
  all_goals decide

lemma migFindOci :
    (compareCompute ⟨some 2, some 4, none⟩ migrationDemoCatalog.compute).«matches».find?
      (fun m => decide (m.provider = CloudProvider.oci)) = none := by
  rw [migMatches_eval]
  norm_num [awsMigInstance, azureMigInstance]
  all_goals decide

lemma migCostAws :
    calculateProviderCost migrationDemoCatalog migrationDemoSpec CloudProvider.aws =
      awsMigEstimate := by
  simp only [calculateProviderCost, migrationDemoSpec, migFindAws]
  norm_num [jsOr, awsMigInstance, awsMigEstimate]

lemma migCostAzure :
    calculateProviderCost migrationDemoCatalog migrationDemoSpec CloudProvider.azure =
      azureMigEstimate := by
  simp only [calculateProviderCost, migrationDemoSpec, migFindAzure]
  norm_num [jsOr, azureMigInstance, azureMigEstimate]

lemma migCostGcp :
    calculateProviderCost migrationDemoCatalog migrationDemoSpec CloudProvider.gcp =
      gcpMigEstimate := by
  simp only [calculateProviderCost, migrationDemoSpec, migFindGcp]
  norm_num [gcpMigEstimate]

lemma migCostOci :
    calculateProviderCost migrationDemoCatalog migrationDemoSpec CloudProvider.oci =
      ociMigEstimate := by
  simp only [calculateProviderCost, migrationDemoSpec, migFindOci]
  norm_num [ociMigEstimate]

lemma migWorkload_eval :
    calculateWorkloadCost migrationDemoCatalog migrationDemoSpec =
      ⟨[gcpMigEstimate, ociMigEstimate, azureMigEstimate, awsMigEstimate],
        some CloudProvider.gcp⟩ := by
  simp only [calculateWorkloadCost, providers, List.map_cons, List.map_nil,
    migCostAws, migCostAzure, migCostGcp, migCostOci]
  norm_num [List.insertionSort, List.orderedInsert, awsMigEstimate, azureMigEstimate,
    gcpMigEstimate, ociMigEstimate]

lemma migrationDemo_eval :
    estimateMigrationSavings migrationDemoCatalog migrationDemoSpec CloudProvider.aws
      (some CloudProvider.azure) = some migrationDemoResult := by
  have hf1 : ([gcpMigEstimate, ociMigEstimate, azureMigEstimate, awsMigEstimate].find?
      fun e => decide (e.provider = CloudProvider.aws)) = some awsMigEstimate := by
    norm_num [gcpMigEstimate, ociMigEstimate, azureMigEstimate, awsMigEstimate]
    all_goals decide
  have hf2 : ([gcpMigEstimate, ociMigEstimate, azureMigEstimate, awsMigEstimate].find?
      fun e => decide (e.provider = CloudProvider.azure)) = some azureMigEstimate := by
    norm_num [gcpMigEstimate, ociMigEstimate, azureMigEstimate, awsMigEstimate]
    all_goals decide
  simp only [estimateMigrationSavings, migWorkload_eval, Option.orElse, hf1, hf2]
  norm_num [migrationDemoResult, awsMigEstimate, azureMigEstimate, chooseRecommendation,
    round_eq, Rat.floor_def']

/-- C7 counterexample: for the demonstration workload the monthly savings
is $0.40, which rounds to 0 (and the reported percent is 0), yet the
chosen wording is the positive-savings one, not the ~zero one — the
wording threshold is the raw sign, not "0 after rounding". -/
theorem migration_rounding_counterexample :
    estimateMigrationSavings migrationDemoCatalog migrationDemoSpec CloudProvider.aws
        (some CloudProvider.azure) = some migrationDemoResult ∧
    migrationDemoResult.recommendation = RecommendationKind.migrationSaves ∧
    round migrationDemoResult.monthlySavings = 0 ∧
    migrationDemoResult.percentSavings = 0 ∧
    RecommendationKind.migrationSaves ≠ RecommendationKind.costsSimilar := by
  refine ⟨migrationDemo_eval, rfl, ?_, rfl, by decide⟩
  norm_num [migrationDemoResult, round_eq, Rat.floor_def']

/-- Witness for C7 at the demonstration workload. -/
theorem migration_savings_shape_witness :
    (migrationDemoResult.annualSavings = 12 * migrationDemoResult.monthlySavings ∧
      (migrationDemoResult.recommendation = RecommendationKind.costsSimilar ↔
        migrationDemoResult.monthlySavings = 0) ∧
      (migrationDemoResult.recommendation = RecommendationKind.migrationSaves ↔
        0 < migrationDemoResult.monthlySavings) ∧
      (migrationDemoResult.recommendation = RecommendationKind.currentIsCheaper ↔
        migrationDemoResult.monthlySavings < 0)) ∧
    estimateMigrationSavings migrationDemoCatalog migrationDemoSpec CloudProvider.oci none =
      estimateMigrationSavings migrationDemoCatalog migrationDemoSpec CloudProvider.oci
        (some CloudProvider.gcp) :=
  ⟨migration_savings_shape.1 migrationDemoCatalog migrationDemoSpec CloudProvider.aws
      (some CloudProvider.azure) migrationDemoResult migrationDemo_eval,
    migration_savings_shape.2 migrationDemoCatalog migrationDemoSpec CloudProvider.oci
      CloudProvider.gcp (by rw [migWorkload_eval])⟩

/-- C9 counterexample: the Lightsail `nano` bundle is mapped by
`getAWSLightsailPricing` to a `ComputeInstance` whose stored monthly price
3.50 differs from the recompute `round(0.0047 × 730 × 100)/100 = 3.43` —
so not every constructed record derives `monthlyPrice` from
`hourlyPrice`. -/
theorem lightsail_monthly_not_recomputed :
    LIGHTSAIL_BUNDLES.head? = some nanoBundle ∧
    (lightsailInstance nanoBundle).monthlyPrice = 3.50 ∧
    monthlyFromHourly (lightsailInstance nanoBundle).hourlyPrice = 3.43 ∧
    (lightsailInstance nanoBundle).monthlyPrice ≠
      monthlyFromHourly (lightsailInstance nanoBundle).hourlyPrice := by
  refine ⟨rfl, rfl, ?_, ?_⟩
  · norm_num [monthlyFromHourly, lightsailInstance, nanoBundle, round_eq, Rat.floor_def']
  · norm_num [monthlyFromHourly, lightsailInstance, nanoBundle, round_eq, Rat.floor_def']

/-- C9 amended: every `ComputeInstance` built by the EC2 fetcher satisfies
`monthlyPrice = round(hourlyPrice × 730 × 100)/100` (0.14 gives 102.20),
but the Lightsail bundles carry manually curated monthly prices stored
independently of that recompute path. -/
theorem monthly_price_recompute :
    (∀ (name : String) (vcpus memoryGB hourlyPrice : ℚ) (category : ComputeCategory)
        (arch : Option Architecture),
        (awsEC2Instance name vcpus memoryGB hourlyPrice category arch).monthlyPrice =
          (round ((awsEC2Instance name vcpus memoryGB hourlyPrice category arch).hourlyPrice
            * 730 * 100) : ℚ) / 100)
    ∧ monthlyFromHourly 0.14 = 102.20
    ∧ ∃ b ∈ LIGHTSAIL_BUNDLES,
        (lightsailInstance b).monthlyPrice ≠ monthlyFromHourly b.hourlyPrice := by
  refine ⟨fun name vcpus memoryGB hourlyPrice category arch => rfl, ?_, ?_⟩
  · norm_num [monthlyFromHourly, round_eq, Rat.floor_def']
  · exact ⟨nanoBundle, List.mem_cons_self nanoBundle _,
      by norm_num [monthlyFromHourly, lightsailInstance, nanoBundle, round_eq, Rat.floor_def']⟩

end CloudCost
